import Mathlib

/-
Shallow embedding of the LS-8 emulator in `ls8/cpu.py`.

Modelling conventions:
* Python lists of fixed length are functions out of `Fin n`; indexing models
  CPython semantics: an index `i` with `0 ≤ i < n` reads slot `i`, an index
  with `-n ≤ i < 0` reads slot `n + i`, anything else raises `IndexError`.
* RAM cells hold `Nat` (every value ever written to RAM is a loaded byte or a
  copy of another RAM cell).  Registers hold `Int`: Python integers are
  unbounded and the stack-pointer decrement in `PUSH`/`CALL` can drive
  register 7 below zero.
* Exceptions (`IndexError`, `KeyError`, `ValueError`, the `Exception` raised
  for an unsupported ALU op, and the `SystemExit` raised by `quit()` in `HLT`)
  are modelled with `Except PyErr`.  None of them is ever caught in the
  program, so an error aborts the whole computation, exactly as in the source.
* `fl is not 1` in `JNE` and `len(cleaned_line) is 8` in `load` are modelled
  as `≠`/`=`: the compared values are always small CPython-cached integers,
  for which identity and equality coincide.
* `print` output is collected in an `out` list instead of being written to
  stdout.
* `str.isdigit` and the digit set of `int(s, 2)` follow the Unicode tables of
  the CPython runtime (3.11): `decimalDigitRuns` lists every run of Unicode
  decimal digits with their values, `digitOnlyRanges` the Numeric_Type=Digit
  characters that `isdigit` accepts but `int` rejects.
-/

namespace LS8

/-- Python runtime errors that the program can raise (none are caught). -/
inductive PyErr where
  | indexError
  | keyError (key : Nat)
  | valueError
  | unsupportedOp
  | systemExit
  deriving DecidableEq, Repr

/-- Opcode constant from cpu.py. -/
def ADD : Nat := 0b10100000

/-- Opcode constant from cpu.py. -/
def LDI : Nat := 0b10000010

/-- Opcode constant from cpu.py. -/
def PRN : Nat := 0b01000111

/-- Opcode constant from cpu.py. -/
def HLT : Nat := 0b00000001

/-- Opcode constant from cpu.py. -/
def MUL : Nat := 0b10100010

/-- Opcode constant from cpu.py. -/
def PUSH : Nat := 0b01000101

/-- Opcode constant from cpu.py. -/
def POP : Nat := 0b01000110

/-- Opcode constant from cpu.py. -/
def CALL : Nat := 0b01010000

/-- Opcode constant from cpu.py. -/
def RET : Nat := 0b00010001

/-- Opcode constant from cpu.py. -/
def CMP : Nat := 0b10100111

/-- Opcode constant from cpu.py. -/
def JMP : Nat := 0b01010100

/-- Opcode constant from cpu.py. -/
def JEQ : Nat := 0b01010101

/-- Opcode constant from cpu.py. -/
def JNE : Nat := 0b01010110

/-- CPython list read `l[i]` for a fixed-length list: non-negative indices in
range read directly, negative indices in `[-n, 0)` wrap to `n + i`, anything
else raises `IndexError`. -/
def pyGet {n : Nat} {α : Type} (l : Fin n → α) (i : Int) : Except PyErr α :=
  if h : 0 ≤ i ∧ i < (n : Int) then
    .ok (l ⟨i.toNat, by omega⟩)
  else if h2 : -(n : Int) ≤ i ∧ i < 0 then
    .ok (l ⟨(i + n).toNat, by omega⟩)
  else
    .error .indexError

/-- CPython list write `l[i] = v` for a fixed-length list, with the same index
semantics as `pyGet`. -/
def pySet {n : Nat} {α : Type} (l : Fin n → α) (i : Int) (v : α) :
    Except PyErr (Fin n → α) :=
  if h : 0 ≤ i ∧ i < (n : Int) then
    .ok (Function.update l ⟨i.toNat, by omega⟩ v)
  else if h2 : -(n : Int) ≤ i ∧ i < 0 then
    .ok (Function.update l ⟨(i + n).toNat, by omega⟩ v)
  else
    .error .indexError

/-- The state of the `CPU` object: `self.ram`, `self.reg`, `self.pc`,
`self.ir`, `self.fl`, plus the text printed so far. -/
structure CPU where
  ram : Fin 256 → Nat
  reg : Fin 8 → Int
  pc : Int
  ir : Option Nat
  fl : Int
  out : List Int
  deriving DecidableEq

/-- `CPU.__init__`: 256 zeroed RAM cells, 8 zeroed registers except the stack
pointer `reg[7] = 0xf4`, `pc = 0`, `ir = None`, `fl = 0`. -/
def initCPU : CPU where
  ram := fun _ => 0
  reg := fun i => if i = 7 then 0xf4 else 0
  pc := 0
  ir := none
  fl := 0
  out := []

/-- `CPU.ram_read`. -/
def CPU.ram_read (self : CPU) (address : Int) : Except PyErr Nat :=
  pyGet self.ram address

/-- `CPU.ram_write`. -/
def CPU.ram_write (self : CPU) (value : Nat) (address : Int) :
    Except PyErr CPU := do
  let ram1 ← pySet self.ram address value
  .ok { self with ram := ram1 }

/-- `CPU.alu`: `ADD` and `MUL` mutate `reg[reg_a]` (note: no masking to 8
bits), `CMP` overwrites the flags register, any other op raises. -/
def CPU.alu (self : CPU) (op : String) (reg_a reg_b : Nat) :
    Except PyErr CPU :=
  if op = "ADD" then do
    let va ← pyGet self.reg (reg_a : Int)
    let vb ← pyGet self.reg (reg_b : Int)
    let reg1 ← pySet self.reg (reg_a : Int) (va + vb)
    .ok { self with reg := reg1 }
  else if op = "MUL" then do
    let va ← pyGet self.reg (reg_a : Int)
    let vb ← pyGet self.reg (reg_b : Int)
    let reg1 ← pySet self.reg (reg_a : Int) (va * vb)
    .ok { self with reg := reg1 }
  else if op = "CMP" then do
    let va ← pyGet self.reg (reg_a : Int)
    let vb ← pyGet self.reg (reg_b : Int)
    if va < vb then .ok { self with fl := 0b00000100 }
    else if va > vb then .ok { self with fl := 0b00000010 }
    else if va = vb then .ok { self with fl := 0b00000001 }
    else .ok self
  else
    .error .unsupportedOp

/-- `CPU.LDI`: `reg[ram[pc+1]] = ram[pc+2]`. -/
def CPU.LDI (self : CPU) : Except PyErr CPU := do
  let register_address ← pyGet self.ram (self.pc + 1)
  let register_value ← pyGet self.ram (self.pc + 2)
  let reg1 ← pySet self.reg (register_address : Int) (register_value : Int)
  .ok { self with reg := reg1 }

/-- `CPU.PRN`: print `reg[ram_read(pc+1)]`. -/
def CPU.PRN (self : CPU) : Except PyErr CPU := do
  let idx ← self.ram_read (self.pc + 1)
  let value ← pyGet self.reg (idx : Int)
  .ok { self with out := self.out ++ [value] }

/-- `CPU.HLT`: `quit()` raises `SystemExit`. -/
def CPU.HLT (_self : CPU) : Except PyErr CPU :=
  .error .systemExit

/-- `CPU.PUSH`: decrement `reg[7]`, then `ram[reg[7]] = ram[pc+1]` (the raw
operand byte). -/
def CPU.PUSH (self : CPU) : Except PyErr CPU := do
  let reg1 := Function.update self.reg 7 (self.reg 7 - 1)
  let v ← pyGet self.ram (self.pc + 1)
  let ram1 ← pySet self.ram (reg1 7) v
  .ok { self with reg := reg1, ram := ram1 }

/-- `CPU.POP`: `ram[pc+1] = ram[reg[7]]`, then increment `reg[7]`. -/
def CPU.POP (self : CPU) : Except PyErr CPU := do
  let v ← pyGet self.ram (self.reg 7)
  let ram1 ← pySet self.ram (self.pc + 1) v
  let reg1 := Function.update self.reg 7 (self.reg 7 + 1)
  .ok { self with ram := ram1, reg := reg1 }

/-- `CPU.CALL`: decrement `reg[7]`, push the raw byte `ram[pc+1]`, then
`pc = reg[pc+1]` — the *address* `pc + 1` is used as the register index. -/
def CPU.CALL (self : CPU) : Except PyErr CPU := do
  let reg1 := Function.update self.reg 7 (self.reg 7 - 1)
  let v ← pyGet self.ram (self.pc + 1)
  let ram1 ← pySet self.ram (reg1 7) v
  let newpc ← pyGet reg1 (self.pc + 1)
  .ok { self with reg := reg1, ram := ram1, pc := newpc }

/-- `CPU.RET`: `pc = ram[reg[7]]`, then increment `reg[7]`. -/
def CPU.RET (self : CPU) : Except PyErr CPU := do
  let v ← pyGet self.ram (self.reg 7)
  let reg1 := Function.update self.reg 7 (self.reg 7 + 1)
  .ok { self with pc := (v : Int), reg := reg1 }

/-- `CPU.JMP`: `pc = reg[ram[pc+1]]`. -/
def CPU.JMP (self : CPU) : Except PyErr CPU := do
  let idx ← pyGet self.ram (self.pc + 1)
  let v ← pyGet self.reg (idx : Int)
  .ok { self with pc := v }

/-- `CPU.JEQ`: if `fl == 1` jump, else `pc += 2`. -/
def CPU.JEQ (self : CPU) : Except PyErr CPU :=
  if self.fl = 1 then self.JMP
  else .ok { self with pc := self.pc + 2 }

/-- `CPU.JNE`: if `fl is not 1` jump, else `pc += 2` (`fl` is only ever one of
the small cached integers 0, 1, 2, 4, so identity agrees with equality). -/
def CPU.JNE (self : CPU) : Except PyErr CPU :=
  if self.fl ≠ 1 then self.JMP
  else .ok { self with pc := self.pc + 2 }

/-- `self.branchtable[ir](...)`: dictionary dispatch on the opcode.  A missing
key raises `KeyError(ir)`.  In the source the `is_alu_op` bit only selects the
call arity; every key with bit 5 set maps to a two-argument ALU lambda and
every other key to a zero-argument handler, so folding the lookup and the call
into one table is faithful. -/
def CPU.branchtable (self : CPU) (ir oper_a oper_b : Nat) :
    Except PyErr CPU :=
  if ir = LS8.LDI then self.LDI
  else if ir = LS8.PRN then self.PRN
  else if ir = LS8.HLT then self.HLT
  else if ir = LS8.MUL then self.alu "MUL" oper_a oper_b
  else if ir = LS8.ADD then self.alu "ADD" oper_a oper_b
  else if ir = LS8.PUSH then self.PUSH
  else if ir = LS8.POP then self.POP
  else if ir = LS8.CALL then self.CALL
  else if ir = LS8.RET then self.RET
  else if ir = LS8.CMP then self.alu "CMP" oper_a oper_b
  else if ir = LS8.JMP then self.JMP
  else if ir = LS8.JEQ then self.JEQ
  else if ir = LS8.JNE then self.JNE
  else .error (.keyError ir)

/-- One iteration of the `while True` body of `CPU.run`: fetch the opcode into
`ir`, decode `sets_pc`, read both potential operands `ram[pc+1]`, `ram[pc+2]`,
dispatch, then advance `pc` by `((ir & 0b11000000) >> 6) + 1` unless the
`sets_pc` bit was set. -/
def CPU.step (self : CPU) : Except PyErr CPU := do
  let ir ← self.ram_read self.pc
  let s := { self with ir := some ir }
  let sets_pc := (ir &&& 0b00010000) >>> 4
  let oper_a ← pyGet s.ram (s.pc + 1)
  let oper_b ← pyGet s.ram (s.pc + 2)
  let s1 ← s.branchtable ir oper_a oper_b
  if sets_pc = 0 then
    .ok { s1 with pc := s1.pc + ((((ir &&& 0b11000000) >>> 6) + 1 : Nat) : Int) }
  else
    .ok s1

/-- `CPU.run`, with explicit fuel: the loop body repeats until an uncaught
exception (`SystemExit` from `HLT`, or an error) ends the process. -/
def CPU.run (self : CPU) : Nat → Except PyErr CPU
  | 0 => .ok self
  | fuel + 1 => do
      let s1 ← self.step
      s1.run fuel

/-- Base code points of the 66 contiguous runs of ten Unicode decimal-digit
characters (Numeric_Type=Decimal, category Nd) recognised by CPython; taken
from the CPython (3.11) Unicode tables.  The run starting at `b` holds the
digits with values 0–9 at code points `b` … `b + 9`. -/
def decimalDigitRuns : List Nat :=
  [0x30, 0x660, 0x6f0, 0x7c0, 0x966, 0x9e6, 0xa66, 0xae6,
   0xb66, 0xbe6, 0xc66, 0xce6, 0xd66, 0xde6, 0xe50, 0xed0,
   0xf20, 0x1040, 0x1090, 0x17e0, 0x1810, 0x1946, 0x19d0, 0x1a80,
   0x1a90, 0x1b50, 0x1bb0, 0x1c40, 0x1c50, 0xa620, 0xa8d0, 0xa900,
   0xa9d0, 0xa9f0, 0xaa50, 0xabf0, 0xff10, 0x104a0, 0x10d30, 0x11066,
   0x110f0, 0x11136, 0x111d0, 0x112f0, 0x11450, 0x114d0, 0x11650, 0x116c0,
   0x11730, 0x118e0, 0x11950, 0x11c50, 0x11d50, 0x11da0, 0x16a60, 0x16ac0,
   0x16b50, 0x1d7ce, 0x1d7d8, 0x1d7e2, 0x1d7ec, 0x1d7f6, 0x1e140, 0x1e2f0,
   0x1e950, 0x1fbf0]

/-- The decimal value CPython assigns to a character, when the character is a
Unicode decimal digit: its offset inside its run.  `int(s, base)` accepts
exactly these characters as digits, each contributing this value. -/
def pyDecimalVal (c : Char) : Option Nat :=
  match decimalDigitRuns.find? (fun b => decide (b ≤ c.toNat ∧ c.toNat ≤ b + 9)) with
  | some b => some (c.toNat - b)
  | none => none

/-- Code-point ranges of the characters with Unicode Numeric_Type=Digit but no
decimal value (superscript, subscript, circled, … digits); `str.isdigit`
accepts them but `int` rejects them.  Taken from the CPython (3.11) Unicode
tables. -/
def digitOnlyRanges : List (Nat × Nat) :=
  [(0xb2, 0xb3), (0xb9, 0xb9), (0x1369, 0x1371), (0x19da, 0x19da), (0x2070, 0x2070),
   (0x2074, 0x2079), (0x2080, 0x2089), (0x2460, 0x2468), (0x2474, 0x247c), (0x2488, 0x2490),
   (0x24ea, 0x24ea), (0x24f5, 0x24fd), (0x24ff, 0x24ff), (0x2776, 0x277e), (0x2780, 0x2788),
   (0x278a, 0x2792), (0x10a40, 0x10a43), (0x10e60, 0x10e68), (0x11052, 0x1105a), (0x1f100, 0x1f10a)]

/-- CPython `str.isdigit` for one character: true for a Unicode decimal digit
or a Numeric_Type=Digit character. -/
def pyIsDigit (c : Char) : Bool :=
  (pyDecimalVal c).isSome ||
    digitOnlyRanges.any (fun r => decide (r.1 ≤ c.toNat ∧ c.toNat ≤ r.2))

/-- `line[:8]` filtered to digit characters, as in `CPU.load`. -/
def cleaned_line (line : List Char) : List Char :=
  (line.take 8).filter pyIsDigit

/-- Python `int(s, 2)` on a non-empty all-digit string (the only shape the
loader ever passes): every character must be a Unicode decimal digit of value
0 or 1 — any other digit character raises `ValueError` — and each digit
contributes its decimal value. -/
def int_base2 (s : List Char) : Except PyErr Nat :=
  if s ≠ [] ∧ ∀ c ∈ s, pyDecimalVal c = some 0 ∨ pyDecimalVal c = some 1 then
    .ok (s.foldl (fun acc c => 2 * acc + (pyDecimalVal c).getD 0) 0)
  else
    .error .valueError

/-- One iteration of the loop in `CPU.load`, for one source line: clean the
line, and when exactly 8 digit characters remain, parse them in base 2 and
`ram_write` the byte at `address`, advancing `address`; otherwise skip the
line, leaving state and address unchanged. -/
def CPU.loadLine (self : CPU) (address : Nat) (line : List Char) :
    Except PyErr (CPU × Nat) :=
  if (cleaned_line line).length = 8 then do
    let v ← int_base2 (cleaned_line line)
    let s1 ← self.ram_write v (address : Int)
    .ok (s1, address + 1)
  else
    .ok (self, address)

/-- The whole loading loop of `CPU.load` over the file's lines (the source
then calls `self.run()`; that part is modelled separately by `CPU.run`). -/
def CPU.loadLines (self : CPU) (lines : List (List Char)) (address : Nat) :
    Except PyErr (CPU × Nat) :=
  match lines with
  | [] => .ok (self, address)
  | l :: ls => do
      let r ← self.loadLine address l
      r.1.loadLines ls r.2

/-- Observation: the loader's acceptance test for a line — exactly 8 digit
characters survive `cleaned_line`. -/
def goodLine (l : List Char) : Bool := (cleaned_line l).length == 8

/-- Observation: every digit the loader keeps from the line is a binary
digit, so `int(^, 2)` will succeed on it. -/
def binLine (l : List Char) : Bool :=
  (cleaned_line l).all fun c => pyDecimalVal c == some 0 || pyDecimalVal c == some 1

/-- Observation: the byte value `int(cleaned_line, 2)` of a loadable line. -/
def binVal (l : List Char) : Nat :=
  (cleaned_line l).foldl (fun acc c => 2 * acc + (pyDecimalVal c).getD 0) 0

/-- Observation: write a list of byte values at consecutive addresses,
starting at `address` (used to state what a whole `load` pass does). -/
def writeSeq (ram : Fin 256 → Nat) (address : Nat) : List Nat → (Fin 256 → Nat)
  | [] => ram
  | v :: vs =>
    writeSeq (if h : address < 256 then Function.update ram ⟨address, h⟩ v else ram)
      (address + 1) vs

/-- States reachable from `CPU.__init__` by any number of `load` passes over
some source lines and run-loop iterations. -/
inductive Reachable : CPU → Prop where
  | init : Reachable initCPU
  | load (s s1 : CPU) (lines : List (List Char)) (a1 : Nat) (hs : Reachable s)
      (h : s.loadLines lines 0 = .ok (s1, a1)) : Reachable s1
  | step (s s1 : CPU) (hs : Reachable s) (h : s.step = .ok s1) : Reachable s1

/-- Concrete state for C1: `reg[0] = 250`, `reg[1] = 10`. -/
def W1 : CPU :=
  { initCPU with reg := fun i => if i = 0 then 250 else if i = 1 then 10 else initCPU.reg i }

/-- Concrete state for C2: a `CALL` opcode at address 0 with operand byte 3. -/
def W2 : CPU :=
  { initCPU with ram := fun i => if i = 0 then 80 else if i = 1 then 3 else 0 }

/-- The RAM produced by C2's stack write on `W2`. -/
def W2ram : Fin 256 → Nat := (pySet W2.ram (W2.reg 7 - 1) 3).toOption.getD W2.ram

/-- Concrete state for C3: `reg[0] = 5`, `reg[1] = 9`. -/
def W3 : CPU :=
  { initCPU with reg := fun i => if i = 0 then 5 else if i = 1 then 9 else initCPU.reg i }

/-- Concrete state for C4: `LDI 0 42` at address 0. -/
def W4 : CPU :=
  { initCPU with
    ram := fun i => if i = 0 then 130 else if i = 1 then 0 else if i = 2 then 42 else 0 }

/-- The state C4's dispatch produces on `W4`. -/
def W4s : CPU := (CPU.branchtable { W4 with ir := some 130 } 130 0 42).toOption.getD W4

/-- Concrete state for C5: `JEQ 2` at address 0, with the equal flag set. -/
def W5s : CPU :=
  { initCPU with ram := fun i => if i = 0 then 85 else if i = 1 then 2 else 0, fl := 1 }

/-- Concrete state for C5: `JNE 3` at address 0, with flags clear. -/
def W5u : CPU :=
  { initCPU with ram := fun i => if i = 0 then 86 else if i = 1 then 3 else 0 }

/-- Concrete state for C6: the unregistered opcode `0xFF` at address 0. -/
def W6a : CPU := { initCPU with ram := fun i => if i = 0 then 255 else 0 }

/-- Concrete state for C6: the same unregistered opcode but at `pc = 5`. -/
def W6b : CPU := { initCPU with pc := 5, ram := fun i => if i = 5 then 255 else 0 }

/-- Concrete input for C7: a loadable ASCII line, a short line, a comment
line, another loadable ASCII line, and a loadable line of Arabic-Indic
digits (eight U+0660/U+0661 characters, which CPython's `str.isdigit` keeps
and `int(s, 2)` parses to 1). -/
def W7 : List (List Char) :=
  ["10000010".toList, "111".toList, "# comment".toList, "00101010".toList,
   "٠٠٠٠٠٠٠١".toList]

/-- The state C8's `PUSH` produces from the initial state. -/
def W8a : CPU := (initCPU.PUSH).toOption.getD initCPU

/-- The state C8's `POP` produces from `W8a`. -/
def W8b : CPU := (W8a.POP).toOption.getD W8a

/-- Concrete state for C9: `pc = 254` with a (0-operand) `HLT` stored there. -/
def W9 : CPU := { initCPU with pc := 254, ram := fun i => if i = 254 then 1 else 0 }

/-- Decomposition of a successful monadic bind over `Except PyErr`. -/
theorem bind_ok_iff {α β : Type} (x : Except PyErr α) (f : α → Except PyErr β) (b : β) :
    (x >>= f) = .ok b ↔ ∃ a, x = .ok a ∧ f a = .ok b := by
  cases x <;> simp [bind, Except.bind]

/-- The operand-count field: masking bits 6–7 first and shifting agrees with
shifting first and masking with `0b11`. -/
theorem mask_shift_6 (ir : Nat) : (ir &&& 0b11000000) >>> 6 = (ir >>> 6) &&& 0b11 := by
  apply Nat.eq_of_testBit_eq
  intro i
  simp only [Nat.testBit_shiftRight, Nat.testBit_land]
  rcases i with _ | _ | i
  · simp [Nat.testBit]
  · simp [Nat.testBit]
  · have h1 : Nat.testBit 192 (6 + (i + 2)) = false :=
      Nat.testBit_lt_two_pow (by calc (192 : Nat) < 2 ^ 8 := by norm_num
                                   _ ≤ 2 ^ (6 + (i + 2)) := Nat.pow_le_pow_right (by norm_num) (by omega))
    have h2 : Nat.testBit 3 (i + 2) = false :=
      Nat.testBit_lt_two_pow (by calc (3 : Nat) < 2 ^ 2 := by norm_num
                                   _ ≤ 2 ^ (i + 2) := Nat.pow_le_pow_right (by norm_num) (by omega))
    simp [h1, h2]

/-- The `sets_pc` bit: masking bit 4 first and shifting agrees with shifting
first and masking with `0b1`. -/
theorem mask_shift_4 (ir : Nat) : (ir &&& 0b00010000) >>> 4 = (ir >>> 4) &&& 0b1 := by
  apply Nat.eq_of_testBit_eq
  intro i
  simp only [Nat.testBit_shiftRight, Nat.testBit_land]
  rcases i with _ | i
  · simp [Nat.testBit]
  · have h1 : Nat.testBit 16 (4 + (i + 1)) = false :=
      Nat.testBit_lt_two_pow (by calc (16 : Nat) < 2 ^ 5 := by norm_num
                                   _ ≤ 2 ^ (4 + (i + 1)) := Nat.pow_le_pow_right (by norm_num) (by omega))
    have h2 : Nat.testBit 1 (i + 1) = false :=
      Nat.testBit_lt_two_pow (by calc (1 : Nat) < 2 ^ 1 := by norm_num
                                   _ ≤ 2 ^ (i + 1) := Nat.pow_le_pow_right (by norm_num) (by omega))
    simp [h1, h2]

/-- `ram_write` at an in-range address updates exactly that cell. -/
theorem ram_write_ok (s : CPU) (v : Nat) (a : Nat) (h : a < 256) :
    s.ram_write v (a : Int) = .ok { s with ram := Function.update s.ram ⟨a, h⟩ v } := by
  unfold CPU.ram_write pySet
  rw [dif_pos ⟨by positivity, by exact_mod_cast h⟩]
  simp [bind, Except.bind]

/-- A successful ALU call leaves the flags unchanged or sets one of 1, 2, 4. -/
theorem alu_fl (s : CPU) (op : String) (a b : Nat) (s1 : CPU)
    (h : s.alu op a b = .ok s1) :
    s1.fl = s.fl ∨ s1.fl = 1 ∨ s1.fl = 2 ∨ s1.fl = 4 := by
  unfold CPU.alu at h
  split_ifs at h
  · simp only [bind_ok_iff, Except.ok.injEq] at h
    obtain ⟨va, hva, vb, hvb, reg1, hreg, rfl⟩ := h
    simp
  · simp only [bind_ok_iff, Except.ok.injEq] at h
    obtain ⟨va, hva, vb, hvb, reg1, hreg, rfl⟩ := h
    simp
  · simp only [bind_ok_iff] at h
    obtain ⟨va, hva, vb, hvb, h⟩ := h
    split_ifs at h
    all_goals simp only [Except.ok.injEq] at h
    all_goals rw [← h]
    all_goals simp

/-- `LDI` never touches the flags. -/
theorem LDI_fl (s s1 : CPU) (h : s.LDI = .ok s1) : s1.fl = s.fl := by
  unfold CPU.LDI at h
  simp only [bind_ok_iff, Except.ok.injEq] at h
  obtain ⟨x, hx, y, hy, r, hr, rfl⟩ := h
  rfl

/-- `PRN` never touches the flags. -/
theorem PRN_fl (s s1 : CPU) (h : s.PRN = .ok s1) : s1.fl = s.fl := by
  unfold CPU.PRN at h
  simp only [bind_ok_iff, Except.ok.injEq] at h
  obtain ⟨x, hx, y, hy, rfl⟩ := h
  rfl

/-- `PUSH` never touches the flags. -/
theorem PUSH_fl (s s1 : CPU) (h : s.PUSH = .ok s1) : s1.fl = s.fl := by
  unfold CPU.PUSH at h
  simp only [bind_ok_iff, Except.ok.injEq] at h
  obtain ⟨x, hx, r, hr, rfl⟩ := h
  rfl

/-- `POP` never touches the flags. -/
theorem POP_fl (s s1 : CPU) (h : s.POP = .ok s1) : s1.fl = s.fl := by
  unfold CPU.POP at h
  simp only [bind_ok_iff, Except.ok.injEq] at h
  obtain ⟨x, hx, r, hr, rfl⟩ := h
  rfl

/-- `CALL` never touches the flags. -/
theorem CALL_fl (s s1 : CPU) (h : s.CALL = .ok s1) : s1.fl = s.fl := by
  unfold CPU.CALL at h
  simp only [bind_ok_iff, Except.ok.injEq] at h
  obtain ⟨x, hx, r, hr, t, ht, rfl⟩ := h
  rfl

/-- `RET` never touches the flags. -/
theorem RET_fl (s s1 : CPU) (h : s.RET = .ok s1) : s1.fl = s.fl := by
  unfold CPU.RET at h
  simp only [bind_ok_iff, Except.ok.injEq] at h
  obtain ⟨x, hx, rfl⟩ := h
  rfl

/-- `JMP` never touches the flags. -/
theorem JMP_fl (s s1 : CPU) (h : s.JMP = .ok s1) : s1.fl = s.fl := by
  unfold CPU.JMP at h
  simp only [bind_ok_iff, Except.ok.injEq] at h
  obtain ⟨x, hx, y, hy, rfl⟩ := h
  rfl

/-- `JEQ` never touches the flags. -/
theorem JEQ_fl (s s1 : CPU) (h : s.JEQ = .ok s1) : s1.fl = s.fl := by
  unfold CPU.JEQ at h
  split_ifs at h
  · exact JMP_fl s s1 h
  · simp only [Except.ok.injEq] at h
    rw [← h]

/-- `JNE` never touches the flags. -/
theorem JNE_fl (s s1 : CPU) (h : s.JNE = .ok s1) : s1.fl = s.fl := by
  unfold CPU.JNE at h
  split_ifs at h
  · exact JMP_fl s s1 h
  · simp only [Except.ok.injEq] at h
    rw [← h]

/-- Any successful dispatch leaves the flags unchanged or sets 1, 2 or 4. -/
theorem branchtable_fl (s : CPU) (ir a b : Nat) (s1 : CPU)
    (h : s.branchtable ir a b = .ok s1) :
    s1.fl = s.fl ∨ s1.fl = 1 ∨ s1.fl = 2 ∨ s1.fl = 4 := by
  unfold CPU.branchtable at h
  by_cases h1 : ir = LS8.LDI
  · rw [if_pos h1] at h
    exact Or.inl (LDI_fl s s1 h)
  rw [if_neg h1] at h
  by_cases h2 : ir = LS8.PRN
  · rw [if_pos h2] at h
    exact Or.inl (PRN_fl s s1 h)
  rw [if_neg h2] at h
  by_cases h3 : ir = LS8.HLT
  · rw [if_pos h3] at h
    exact absurd h (by unfold CPU.HLT; simp)
  rw [if_neg h3] at h
  by_cases h4 : ir = LS8.MUL
  · rw [if_pos h4] at h
    exact alu_fl s "MUL" a b s1 h
  rw [if_neg h4] at h
  by_cases h5 : ir = LS8.ADD
  · rw [if_pos h5] at h
    exact alu_fl s "ADD" a b s1 h
  rw [if_neg h5] at h
  by_cases h6 : ir = LS8.PUSH
  · rw [if_pos h6] at h
    exact Or.inl (PUSH_fl s s1 h)
  rw [if_neg h6] at h
  by_cases h7 : ir = LS8.POP
  · rw [if_pos h7] at h
    exact Or.inl (POP_fl s s1 h)
  rw [if_neg h7] at h
  by_cases h8 : ir = LS8.CALL
  · rw [if_pos h8] at h
    exact Or.inl (CALL_fl s s1 h)
  rw [if_neg h8] at h
  by_cases h9 : ir = LS8.RET
  · rw [if_pos h9] at h
    exact Or.inl (RET_fl s s1 h)
  rw [if_neg h9] at h
  by_cases h10 : ir = LS8.CMP
  · rw [if_pos h10] at h
    exact alu_fl s "CMP" a b s1 h
  rw [if_neg h10] at h
  by_cases h11 : ir = LS8.JMP
  · rw [if_pos h11] at h
    exact Or.inl (JMP_fl s s1 h)
  rw [if_neg h11] at h
  by_cases h12 : ir = LS8.JEQ
  · rw [if_pos h12] at h
    exact Or.inl (JEQ_fl s s1 h)
  rw [if_neg h12] at h
  by_cases h13 : ir = LS8.JNE
  · rw [if_pos h13] at h
    exact Or.inl (JNE_fl s s1 h)
  rw [if_neg h13] at h
  cases h

/-- One successful run-loop iteration leaves the flags unchanged or sets one
of 1, 2, 4. -/
theorem step_fl (s s1 : CPU) (h : s.step = .ok s1) :
    s1.fl = s.fl ∨ s1.fl = 1 ∨ s1.fl = 2 ∨ s1.fl = 4 := by
  unfold CPU.step CPU.ram_read at h
  simp only [bind_ok_iff] at h
  obtain ⟨ir, hop, a, ha, b, hb, s2, hd, h⟩ := h
  have hfl := branchtable_fl _ ir a b s2 hd
  split_ifs at h
  all_goals simp only [Except.ok.injEq] at h
  all_goals rw [← h]
  all_goals simpa using hfl

/-- One loader iteration never touches the flags. -/
theorem loadLine_fl (s : CPU) (a : Nat) (l : List Char) (r : CPU × Nat)
    (h : s.loadLine a l = .ok r) : r.1.fl = s.fl := by
  unfold CPU.loadLine CPU.ram_write at h
  split_ifs at h
  · simp only [bind_ok_iff, Except.ok.injEq] at h
    obtain ⟨v, hv, s2, ⟨ram1, hram, rfl⟩, rfl⟩ := h
    rfl
  · simp only [Except.ok.injEq] at h
    rw [← h]

/-- A whole load pass never touches the flags. -/
theorem loadLines_fl (s : CPU) (lines : List (List Char)) (a : Nat) (s1 : CPU)
    (a1 : Nat) (h : s.loadLines lines a = .ok (s1, a1)) : s1.fl = s.fl := by
  induction lines generalizing s a with
  | nil =>
    unfold CPU.loadLines at h
    simp only [Except.ok.injEq, Prod.mk.injEq] at h
    rw [← h.1]
  | cons l ls ih =>
    unfold CPU.loadLines at h
    simp only [bind_ok_iff] at h
    obtain ⟨r, hr, h⟩ := h
    rw [ih r.1 r.2 h, loadLine_fl s a l r hr]

/-- C1: evaluating `CPU.alu` at the claim's own example input: with
`reg[0] = 250` and `reg[1] = 10`, `ADD 0 1` leaves `reg[0] = 260` — not the
claimed `(250 + 10) % 256 = 4` — and `MUL 0 1` leaves `reg[0] = 2500`, not
`2500 % 256 = 196`.  The ALU performs unbounded integer arithmetic; no
reduction modulo 256 happens anywhere in the code. -/
theorem alu_ADD_overflows :
    ((W1.alu "ADD" 0 1).map fun s => s.reg 0) = .ok 260 ∧
      (250 + 10) % 256 = (4 : Int) ∧ (260 : Int) ≠ 4 ∧
      ((W1.alu "MUL" 0 1).map fun s => s.reg 0) = .ok 2500 ∧
      (250 * 10) % 256 = (196 : Int) ∧ (2500 : Int) ≠ 196 :=
  ⟨rfl, by decide, by decide, rfl, by decide, by decide⟩

/-- C2: executing one run-loop iteration on a `CALL` opcode decrements
register 7, writes the raw operand byte `ram[pc+1]` to the new register-7
address, sets `pc` to the contents of the register indexed by the *address*
`pc + 1`, and performs no automatic PC advance afterwards (`CALL` has bit 4
set). -/
theorem step_CALL (s : CPU) (v w : Nat) (ram1 : Fin 256 → Nat) (t : Int)
    (hop : s.ram_read s.pc = .ok LS8.CALL)
    (ha : pyGet s.ram (s.pc + 1) = .ok v)
    (hb : pyGet s.ram (s.pc + 2) = .ok w)
    (hwr : pySet s.ram (s.reg 7 - 1) v = .ok ram1)
    (ht : pyGet (Function.update s.reg 7 (s.reg 7 - 1)) (s.pc + 1) = .ok t) :
    (LS8.CALL &&& 0b00010000) >>> 4 = 1 ∧
    s.step =
      .ok
        { s with
          ir := some LS8.CALL
          reg := Function.update s.reg 7 (s.reg 7 - 1)
          ram := ram1
          pc := t } := by
  refine ⟨by decide, ?_⟩
  unfold CPU.step
  rw [show s.ram_read s.pc = .ok LS8.CALL from hop]
  simp only [bind, Except.bind]
  rw [ha, hb]
  unfold CPU.branchtable
  norm_num [LS8.CALL, LS8.LDI, LS8.PRN, LS8.HLT, LS8.MUL, LS8.ADD, LS8.PUSH, LS8.POP]
  unfold CPU.CALL
  simp only [bind, Except.bind, Function.update_same]
  rw [ha]
  simp only [Function.update_same]
  rw [hwr, ht]
  simp

/-- C2 witness: the `CALL` step theorem applied to the concrete state `W2`. -/
theorem step_CALL_witness :
    W2.ram_read W2.pc = .ok LS8.CALL ∧
    pySet W2.ram (W2.reg 7 - 1) 3 = .ok W2ram ∧
    pyGet (Function.update W2.reg 7 (W2.reg 7 - 1)) (W2.pc + 1) = .ok 0 ∧
    ((LS8.CALL &&& 0b00010000) >>> 4 = 1 ∧
      W2.step =
        .ok
          { W2 with
            ir := some LS8.CALL
            reg := Function.update W2.reg 7 (W2.reg 7 - 1)
            ram := W2ram
            pc := 0 }) :=
  ⟨rfl, rfl, rfl, step_CALL W2 3 0 W2ram 0 rfl rfl rfl rfl rfl⟩

/-- C3: `CMP` on two readable registers overwrites the whole flags register
with exactly `0b100` when `reg[a] < reg[b]`, exactly `0b010` when
`reg[a] > reg[b]` and exactly `0b001` when they are equal, for any prior
flags value. -/
theorem alu_CMP_flags (s : CPU) (a b : Nat) (va vb : Int)
    (hva : pyGet s.reg (a : Int) = .ok va)
    (hvb : pyGet s.reg (b : Int) = .ok vb) :
    s.alu "CMP" a b =
      .ok { s with fl := if va < vb then 0b100 else if vb < va then 0b010 else 0b001 } := by
  unfold CPU.alu
  rw [if_neg (by decide), if_neg (by decide), if_pos rfl]
  simp only [bind, Except.bind]
  rw [hva, hvb]
  rcases lt_trichotomy va vb with h | h | h
  · simp only [if_pos h]
  · have h1 : ¬ va < vb := by omega
    have h2 : ¬ vb < va := by omega
    simp only [if_neg h1, if_neg h2, if_pos h]
  · have h1 : ¬ va < vb := by omega
    simp only [if_neg h1, if_pos h]

/-- C3 witness: `CMP 0 1` on `W3` (`reg[0] = 5 < reg[1] = 9`) sets the flags
to `0b100`. -/
theorem alu_CMP_flags_witness :
    pyGet W3.reg ((0 : Nat) : Int) = .ok 5 ∧
    pyGet W3.reg ((1 : Nat) : Int) = .ok 9 ∧
    W3.alu "CMP" 0 1 =
      .ok { W3 with fl := if (5 : Int) < 9 then 0b100 else if (9 : Int) < 5 then 0b010 else 0b001 } :=
  ⟨rfl, rfl, alu_CMP_flags W3 0 1 5 9 rfl rfl⟩

/-- C4: after any successfully dispatched iteration, the run loop adds
`((opcode >> 6) & 0b11) + 1` to whatever `pc` the handler left when the
opcode's bit 4 is clear, and leaves `pc` exactly as the handler set it when
bit 4 is set. -/
theorem run_pc_advance (s : CPU) (ir a b : Nat) (s1 : CPU)
    (hop : s.ram_read s.pc = .ok ir)
    (ha : pyGet s.ram (s.pc + 1) = .ok a)
    (hb : pyGet s.ram (s.pc + 2) = .ok b)
    (hd : CPU.branchtable { s with ir := some ir } ir a b = .ok s1) :
    s.step =
      .ok
        (if (ir >>> 4) &&& 0b1 = 0 then
          { s1 with pc := s1.pc + ((((ir >>> 6) &&& 0b11) + 1 : Nat) : Int) }
        else s1) := by
  unfold CPU.step
  rw [hop]
  simp only [bind, Except.bind]
  rw [ha, hb]
  simp only [hd]
  rw [mask_shift_4 ir, mask_shift_6 ir]
  split <;> rfl

/-- C4 witness: the PC-advance theorem applied to `W4` (an `LDI`, bit 4
clear, 2 operands, so `pc` advances by 3). -/
theorem run_pc_advance_witness :
    W4.ram_read W4.pc = .ok 130 ∧
    CPU.branchtable { W4 with ir := some 130 } 130 0 42 = .ok W4s ∧
    W4.step =
      .ok
        (if (130 >>> 4) &&& 0b1 = 0 then
          { W4s with pc := W4s.pc + ((((130 >>> 6) &&& 0b11) + 1 : Nat) : Int) }
        else W4s) :=
  ⟨rfl, rfl, run_pc_advance W4 130 0 42 W4s rfl rfl rfl rfl⟩

/-- C5: a `JEQ` iteration jumps to `reg[ram[pc+1]]` exactly when the whole
flags register equals 1 and otherwise sets `pc := pc + 2`; a `JNE` iteration
jumps exactly when the flags register differs from 1 and otherwise sets
`pc := pc + 2`; in both cases the final `pc` is exactly what the handler set
(bit 4 is set, so no automatic advance follows). -/
theorem step_JEQ_JNE (s u : CPU) (a1 b1 a2 b2 : Nat) (t1 t2 : Int)
    (hsop : s.ram_read s.pc = .ok LS8.JEQ)
    (hsa : pyGet s.ram (s.pc + 1) = .ok a1)
    (hsb : pyGet s.ram (s.pc + 2) = .ok b1)
    (hst : pyGet s.reg (a1 : Int) = .ok t1)
    (huop : u.ram_read u.pc = .ok LS8.JNE)
    (hua : pyGet u.ram (u.pc + 1) = .ok a2)
    (hub : pyGet u.ram (u.pc + 2) = .ok b2)
    (hut : pyGet u.reg (a2 : Int) = .ok t2) :
    (s.step =
      .ok
        (if s.fl = 1 then { s with ir := some LS8.JEQ, pc := t1 }
         else { s with ir := some LS8.JEQ, pc := s.pc + 2 })) ∧
    (u.step =
      .ok
        (if u.fl = 1 then { u with ir := some LS8.JNE, pc := u.pc + 2 }
         else { u with ir := some LS8.JNE, pc := t2 })) := by
  constructor
  · unfold CPU.step
    rw [hsop]
    simp only [bind, Except.bind]
    rw [hsa, hsb]
    unfold CPU.branchtable
    norm_num [LS8.JEQ, LS8.LDI, LS8.PRN, LS8.HLT, LS8.MUL, LS8.ADD, LS8.PUSH, LS8.POP,
      LS8.CALL, LS8.RET, LS8.CMP, LS8.JMP]
    unfold CPU.JEQ CPU.JMP
    by_cases hfl : s.fl = 1
    · rw [if_pos hfl, if_pos hfl]
      simp [bind, Except.bind, hsa, hst]
    · rw [if_neg hfl, if_neg hfl]
      simp
  · unfold CPU.step
    rw [huop]
    simp only [bind, Except.bind]
    rw [hua, hub]
    unfold CPU.branchtable
    norm_num [LS8.JNE, LS8.JEQ, LS8.LDI, LS8.PRN, LS8.HLT, LS8.MUL, LS8.ADD, LS8.PUSH,
      LS8.POP, LS8.CALL, LS8.RET, LS8.CMP, LS8.JMP]
    unfold CPU.JNE CPU.JMP
    by_cases hfl : u.fl = 1
    · rw [if_neg (by simp [hfl]), if_pos hfl]
      simp
    · rw [if_pos hfl, if_neg hfl]
      simp [bind, Except.bind, hua, hut]

/-- C5 witness: the branch theorem applied to `W5s` (`JEQ` with `fl = 1`,
jump taken) and `W5u` (`JNE` with `fl = 0`, jump taken). -/
theorem step_JEQ_JNE_witness :
    W5s.ram_read W5s.pc = .ok LS8.JEQ ∧ W5s.fl = 1 ∧
    W5u.ram_read W5u.pc = .ok LS8.JNE ∧ W5u.fl = 0 ∧
    (W5s.step =
      .ok
        (if W5s.fl = 1 then { W5s with ir := some LS8.JEQ, pc := 0 }
         else { W5s with ir := some LS8.JEQ, pc := W5s.pc + 2 })) ∧
    (W5u.step =
      .ok
        (if W5u.fl = 1 then { W5u with ir := some LS8.JNE, pc := W5u.pc + 2 }
         else { W5u with ir := some LS8.JNE, pc := 0 })) :=
  ⟨rfl, rfl, rfl, rfl,
   (step_JEQ_JNE W5s W5u 2 0 3 0 0 0 rfl rfl rfl rfl rfl rfl rfl rfl).1,
   (step_JEQ_JNE W5s W5u 2 0 3 0 0 0 rfl rfl rfl rfl rfl rfl rfl rfl).2⟩

/-- C6 (amended): an opcode with no entry in the dispatch table makes the
iteration — and the whole remaining run, whatever fuel is left — stop
immediately with the dictionary lookup error `KeyError(opcode)`; no state is
mutated and execution does not continue. -/
theorem step_unknown_opcode (s : CPU) (ir a b n : Nat)
    (hop : s.ram_read s.pc = .ok ir)
    (ha : pyGet s.ram (s.pc + 1) = .ok a)
    (hb : pyGet s.ram (s.pc + 2) = .ok b)
    (hun : ir ≠ LS8.LDI ∧ ir ≠ LS8.PRN ∧ ir ≠ LS8.HLT ∧ ir ≠ LS8.MUL ∧ ir ≠ LS8.ADD ∧
      ir ≠ LS8.PUSH ∧ ir ≠ LS8.POP ∧ ir ≠ LS8.CALL ∧ ir ≠ LS8.RET ∧ ir ≠ LS8.CMP ∧
      ir ≠ LS8.JMP ∧ ir ≠ LS8.JEQ ∧ ir ≠ LS8.JNE) :
    s.step = .error (.keyError ir) ∧ s.run (n + 1) = .error (.keyError ir) := by
  obtain ⟨n1, n2, n3, n4, n5, n6, n7, n8, n9, n10, n11, n12, n13⟩ := hun
  have hstep : s.step = .error (.keyError ir) := by
    unfold CPU.step
    rw [hop]
    unfold CPU.branchtable
    simp only [bind, Except.bind, ha, hb, if_neg n1, if_neg n2, if_neg n3, if_neg n4,
      if_neg n5, if_neg n6, if_neg n7, if_neg n8, if_neg n9, if_neg n10, if_neg n11,
      if_neg n12, if_neg n13]
  refine ⟨hstep, ?_⟩
  unfold CPU.run
  rw [hstep]
  rfl

/-- C6 counterexample: the error raised for an unregistered opcode carries
only the opcode.  Two states with the same unknown opcode but different
program counters produce the *identical* error value, so the error does not
report the PC, and the code has no `UnknownInstruction` error at all — it is
the raw `KeyError` of the dictionary lookup. -/
theorem unknown_opcode_error_carries_only_opcode :
    W6a.step = .error (.keyError 255) ∧ W6b.step = .error (.keyError 255) ∧
      W6a.pc ≠ W6b.pc :=
  ⟨rfl, rfl, by decide⟩

/-- C6 witness: the unknown-opcode theorem applied to `W6a` (opcode `0xFF`
at `pc = 0`). -/
theorem step_unknown_opcode_witness :
    W6a.ram_read W6a.pc = .ok 255 ∧
    (255 ≠ LS8.LDI ∧ 255 ≠ LS8.PRN ∧ 255 ≠ LS8.HLT ∧ 255 ≠ LS8.MUL ∧ 255 ≠ LS8.ADD ∧
      255 ≠ LS8.PUSH ∧ 255 ≠ LS8.POP ∧ 255 ≠ LS8.CALL ∧ 255 ≠ LS8.RET ∧ 255 ≠ LS8.CMP ∧
      255 ≠ LS8.JMP ∧ 255 ≠ LS8.JEQ ∧ 255 ≠ LS8.JNE) ∧
    W6a.step = .error (.keyError 255) ∧ W6a.run 1 = .error (.keyError 255) :=
  ⟨rfl, by decide,
   (step_unknown_opcode W6a 255 0 0 0 rfl rfl rfl (by decide)).1,
   (step_unknown_opcode W6a 255 0 0 0 rfl rfl rfl (by decide)).2⟩

/-- C7 counterexample: a line whose first 8 characters are 8 digit characters
that are not all binary digits satisfies the claim's acceptance condition but
is *not* loaded — `int(line, 2)` raises `ValueError` and the whole load
aborts.  The same happens for 8 superscript-two characters (U+00B2), which
`str.isdigit` accepts although they are not decimal digits at all. -/
theorem load_eight_nonbinary_digits_fatal :
    (cleaned_line ("22222222".toList)).length = 8 ∧
      initCPU.loadLines ["22222222".toList] 0 = .error .valueError ∧
    (cleaned_line ("²²²²²²²²".toList)).length = 8 ∧
      initCPU.loadLines ["²²²²²²²²".toList] 0 = .error .valueError :=
  ⟨rfl, rfl, rfl, rfl⟩

/-- C7 (amended): provided every line that passes the 8-digit filter consists
of binary digits only and at most 256 lines pass it, a load pass loads a line
iff its first 8 characters filtered to digits yield exactly 8 digits; the
accepted lines' byte values are written to consecutive addresses starting at
the initial load address, and skipped lines do not advance it. -/
theorem loadLines_spec (s : CPU) (lines : List (List Char)) (address : Nat)
    (hbin : ∀ l ∈ lines, goodLine l = true → binLine l = true)
    (hcap : address + (lines.filter goodLine).length ≤ 256) :
    s.loadLines lines address =
      .ok
        ({ s with ram := writeSeq s.ram address ((lines.filter goodLine).map binVal) },
         address + (lines.filter goodLine).length) := by
  induction lines generalizing s address with
  | nil =>
    unfold CPU.loadLines
    simp [writeSeq]
  | cons l ls ih =>
    unfold CPU.loadLines CPU.loadLine
    by_cases hg : goodLine l = true
    · have hlen : (cleaned_line l).length = 8 := by simpa [goodLine] using hg
      have hbinl := hbin l (by simp) hg
      have hne : cleaned_line l ≠ [] := by
        intro hx
        rw [hx] at hlen
        simp at hlen
      have hall : ∀ c ∈ cleaned_line l,
          pyDecimalVal c = some 0 ∨ pyDecimalVal c = some 1 := by
        simpa [binLine] using hbinl
      have hint : int_base2 (cleaned_line l) = .ok (binVal l) := by
        unfold int_base2 binVal
        rw [if_pos ⟨hne, hall⟩]
      have hflt : (l :: ls).filter goodLine = l :: ls.filter goodLine :=
        List.filter_cons_of_pos hg
      have haddr : address < 256 := by
        rw [hflt] at hcap
        simp only [List.length_cons] at hcap
        omega
      rw [if_pos hlen, hint]
      simp only [bind, Except.bind]
      simp only [ram_write_ok s (binVal l) address haddr]
      have hcap2 : address + 1 + (ls.filter goodLine).length ≤ 256 := by
        rw [hflt] at hcap
        simp only [List.length_cons] at hcap
        omega
      rw [ih _ (address + 1) (fun l2 hl2 => hbin l2 (List.mem_cons_of_mem _ hl2)) hcap2]
      rw [hflt]
      simp only [List.map_cons, List.length_cons, writeSeq, dif_pos haddr]
      have harith : address + 1 + (ls.filter goodLine).length =
          address + ((ls.filter goodLine).length + 1) := by omega
      rw [harith]
    · have hlen : ¬(cleaned_line l).length = 8 := by simpa [goodLine] using hg
      have hflt : (l :: ls).filter goodLine = ls.filter goodLine :=
        List.filter_cons_of_neg (by simpa using hg)
      rw [if_neg hlen]
      simp only [bind, Except.bind]
      rw [hflt]
      exact ih s address (fun l2 hl2 => hbin l2 (List.mem_cons_of_mem _ hl2))
        (by rw [hflt] at hcap; exact hcap)

/-- C7 witness: the loader theorem applied to `W7` — three loadable lines
(two ASCII, one of Arabic-Indic digits) and two skipped lines; the three
bytes land at addresses 0, 1 and 2 and the final load address is 3. -/
theorem loadLines_spec_witness :
    (∀ l ∈ W7, goodLine l = true → binLine l = true) ∧
    0 + (W7.filter goodLine).length ≤ 256 ∧
    initCPU.loadLines W7 0 =
      .ok
        ({ initCPU with ram := writeSeq initCPU.ram 0 ((W7.filter goodLine).map binVal) },
         0 + (W7.filter goodLine).length) :=
  ⟨by decide, by decide, loadLines_spec initCPU W7 0 (by decide) (by decide)⟩

/-- C8: a successful `PUSH` handler followed by a successful `POP` handler
returns register 7 (the stack pointer) to its value before the pair. -/
theorem push_pop_sp (s s1 s2 : CPU)
    (h1 : s.PUSH = .ok s1) (h2 : s1.POP = .ok s2) :
    s2.reg 7 = s.reg 7 := by
  unfold CPU.PUSH at h1
  unfold CPU.POP at h2
  simp only [bind, Except.bind] at h1 h2
  split at h1
  · cases h1
  · split at h1
    · cases h1
    · cases h1
      split at h2
      · cases h2
      · split at h2
        · cases h2
        · cases h2
          simp [Function.update_same]

/-- C8 witness: `PUSH` then `POP` from the initial state (`reg[7] = 0xF4`)
restores `reg[7]`. -/
theorem push_pop_sp_witness :
    initCPU.PUSH = .ok W8a ∧ W8a.POP = .ok W8b ∧ W8b.reg 7 = initCPU.reg 7 :=
  ⟨rfl, rfl, push_pop_sp initCPU W8a W8b rfl rfl⟩

/-- C9: with `pc = 254` or `pc = 255` a run-loop iteration fails with
`IndexError` while fetching the potential operands `ram[pc+1]`, `ram[pc+2]`,
before any dispatch — whatever instruction (including 0-operand `HLT` or
`RET`) is stored at `pc`. -/
theorem step_operand_overread (s : CPU) (h : s.pc = 254 ∨ s.pc = 255) :
    s.step = .error .indexError := by
  unfold CPU.step CPU.ram_read
  rcases h with h | h <;> rw [h] <;> norm_num [pyGet, bind, Except.bind]

/-- C9 witness: the overread theorem applied to `W9`, which stores the
0-operand `HLT` at `pc = 254`; the step still dies with `IndexError` instead
of halting. -/
theorem step_operand_overread_witness :
    (W9.pc = 254 ∨ W9.pc = 255) ∧ W9.ram_read W9.pc = .ok LS8.HLT ∧
      W9.step = .error .indexError :=
  ⟨Or.inl rfl, rfl, step_operand_overread W9 (Or.inl rfl)⟩

/-- C10: in every state reachable from construction by load passes and
run-loop iterations, the flags register holds one of 0, 1, 2, 4: it starts
at 0, only `CMP` ever writes it, and `CMP` writes exactly one of
`0b001`, `0b010`, `0b100`. -/
theorem fl_invariant (s : CPU) (h : Reachable s) :
    s.fl = 0 ∨ s.fl = 1 ∨ s.fl = 2 ∨ s.fl = 4 := by
  induction h with
  | init => exact Or.inl rfl
  | load s s1 lines a1 hs h ih =>
    rw [loadLines_fl s lines 0 s1 a1 h]
    exact ih
  | step s s1 hs h ih =>
    rcases step_fl s s1 h with he | h1 | h2 | h4
    · rw [he]; exact ih
    · exact Or.inr (Or.inl h1)
    · exact Or.inr (Or.inr (Or.inl h2))
    · exact Or.inr (Or.inr (Or.inr h4))

/-- C10 witness: the invariant applied to the initial state, which is
reachable by construction. -/
theorem fl_invariant_witness :
    Reachable initCPU ∧
      (initCPU.fl = 0 ∨ initCPU.fl = 1 ∨ initCPU.fl = 2 ∨ initCPU.fl = 4) :=
  ⟨Reachable.init, fl_invariant initCPU Reachable.init⟩

end LS8
